import Mathlib

set_option maxRecDepth 8000
set_option maxHeartbeats 1000000

/-
Verification of the transcript-to-structured-notes pipeline of
src/backend/utils/audio_processing.py.

The Python functions `_code_to_lang_name`, `_loose_json_extract`,
`_coerce_structured_notes` and `summarize_text` are shallowly embedded over
`List Char` (Python indexes strings by code points).  Python operations that
can raise are modelled in `Except String`; the single outbound provider call
of `summarize_text` is replaced by its result (`Option String`, `none`
modelling the call raising).  Unicode-dependent details of Python (`str.lower`,
`str.strip`, the `re` classes `\s` and `\w`) are modelled on their ASCII
subsets, which is all the inputs of interest exercise.
-/

/-- One element of the `action_items` list produced by
`_coerce_structured_notes`: a dict with keys task/owner/due. -/
structure ActionItem where
  task : String
  owner : String
  due : String
  deriving DecidableEq, Repr

/-- The structured notes record returned by `_coerce_structured_notes` and
`summarize_text` (a Python dict with the five fixed keys). -/
structure StructuredNotes where
  executive_summary : String
  key_points : List String
  action_items : List ActionItem
  decisions : List String
  sentiment : String
  deriving DecidableEq, Repr

/-- The character `\x7b`, written by code point to keep it out of string
literals. -/
def braceOpen : Char := Char.ofNat 123

/-- The character `\x7d`. -/
def braceClose : Char := Char.ofNat 125

/-- The bullet glyph `•` of the bullet regex. -/
def bulletGlyph : Char := Char.ofNat 8226

/-- An ASCII apostrophe, used by the Python `repr` model. -/
def singleQuote : Char := Char.ofNat 39

/-- Whitespace as recognised by Python's `json` module: space, tab, newline,
carriage return. -/
def isJsonWs (c : Char) : Bool := c == ' ' || c == '\t' || c == '\n' || c == '\r'

/-- The ASCII subset of Python's `\s` regex class and of the default
`str.strip` character set. -/
def isPyWs (c : Char) : Bool :=
  c == ' ' || c == '\t' || c == '\n' || c == '\r' || c == '\x0b' || c == '\x0c'

/-- The ASCII subset of Python's `\w` regex class. -/
def isWordChar (c : Char) : Bool := c.isAlphanum || c == '_'

/-- The negated character class `[^|,;]` of the owner/due regexes. -/
def sepChars : List Char := ['|', ',', ';']

/-- Python slicing `s[:n]` by code points. -/
def pyTake (n : Nat) (s : String) : String := String.mk (s.data.take n)

/-- Python `len(s)` in code points. -/
def pyLen (s : String) : Nat := s.data.length

/-- Drop characters satisfying `p` from both ends of a character list. -/
def stripWhileList (p : Char → Bool) (cs : List Char) : List Char :=
  ((cs.dropWhile p).reverse.dropWhile p).reverse

/-- Python `s.strip(chars)` for an explicit character set. -/
def pyStripChars (cset : List Char) (s : String) : String :=
  String.mk (stripWhileList (fun c => cset.contains c) s.data)

/-- Python `s.strip()` (ASCII whitespace model). -/
def pyStrip (s : String) : String := String.mk (stripWhileList isPyWs s.data)

/-- Python `s.lower()` (ASCII model: `Char.toLower` only maps A-Z). -/
def pyLower (s : String) : String := String.mk (s.data.map Char.toLower)

/-- Values produced by Python's `json.loads`: `None`, `bool`, `int`, `float`,
`str`, `list`, `dict`.  Floats keep the raw literal text (their numeric
behaviour is not needed by any claim). -/
inductive PyJson where
  | null
  | bool (b : Bool)
  | int (n : Int)
  | float (raw : String)
  | str (s : String)
  | arr (elems : List PyJson)
  | obj (members : List (String × PyJson))

/-- Python `d.get(key, dflt)`.  Members are kept in insertion order; a
duplicate key overwrites, so the last binding wins. -/
def dictGet (members : List (String × PyJson)) (key : String) (dflt : PyJson) : PyJson :=
  ((members.reverse).lookup key).getD dflt

/-- Python `list(d)`: the keys in insertion order of first occurrence. -/
def dictKeys (members : List (String × PyJson)) : List String :=
  members.foldl (fun acc kv => if acc.contains kv.1 then acc else acc ++ [kv.1]) []

/-- Rebuild a member list with unique keys: first-occurrence order, last
value, as the dict built by `json.loads` would hold. -/
def dictDedup (members : List (String × PyJson)) : List (String × PyJson) :=
  (dictKeys members).map (fun k => (k, dictGet members k PyJson.null))

/-- Truthiness of a float literal: a nonzero digit in the mantissa (underflow
of tiny exponents to 0.0 is not modelled; no claim exercises it). -/
def floatRawTruthy (raw : String) : Bool :=
  raw == "nan" || raw == "inf" || raw == "-inf" ||
    ((raw.data.takeWhile (fun c => c != 'e' && c != 'E')).any (fun c => c.isDigit && c != '0'))

/-- Python truthiness of a JSON-derived value. -/
def pyTruthy : PyJson → Bool
  | .null => false
  | .bool b => b
  | .int n => n != 0
  | .float raw => floatRawTruthy raw
  | .str s => s != ""
  | .arr elems => !elems.isEmpty
  | .obj members => !members.isEmpty

/-- Python `v or dflt`. -/
def pyOr (v dflt : PyJson) : PyJson := if pyTruthy v then v else dflt

/-- Escape one character for the Python `repr` of a string quoted by `q`. -/
def reprChar (q c : Char) : List Char :=
  if c == '\\' then ['\\', '\\']
  else if c == q then ['\\', q]
  else if c == '\n' then ['\\', 'n']
  else if c == '\r' then ['\\', 'r']
  else if c == '\t' then ['\\', 't']
  else if c.toNat < 32 || c.toNat == 127 then
    ['\\', 'x', Nat.digitChar (c.toNat / 16), Nat.digitChar (c.toNat % 16)]
  else [c]

/-- Python `repr` of a string: apostrophe quotes unless the string holds an
apostrophe and no double quote (non-printable non-ASCII escapes are
approximated; no claim exercises them). -/
def pyReprStr (s : String) : String :=
  let q := if s.data.contains singleQuote && !s.data.contains '"' then '"' else singleQuote
  String.mk ([q] ++ (s.data.map (reprChar q)).flatten ++ [q])

mutual

/-- Python `repr` of a JSON-derived value (what `str` falls back to for
containers). -/
def pyRepr : PyJson → String
  | .null => "None"
  | .bool true => "True"
  | .bool false => "False"
  | .int n => toString n
  | .float raw => raw
  | .str s => pyReprStr s
  | .arr elems => "[" ++ pyReprElems elems ++ "]"
  | .obj members => "\x7b" ++ pyReprMembers members ++ "\x7d"

/-- Comma-separated `repr` of list elements. -/
def pyReprElems : List PyJson → String
  | [] => ""
  | [x] => pyRepr x
  | x :: xs => pyRepr x ++ ", " ++ pyReprElems xs

/-- Comma-separated `repr` of dict members. -/
def pyReprMembers : List (String × PyJson) → String
  | [] => ""
  | [(k, v)] => pyReprStr k ++ ": " ++ pyRepr v
  | (k, v) :: xs => pyReprStr k ++ ": " ++ pyRepr v ++ ", " ++ pyReprMembers xs

end

/-- Python `str(v)` for a JSON-derived value. -/
def pyStr : PyJson → String
  | .str s => s
  | j => pyRepr j

/-- Python `list(v)`: lists enumerate elements, strings their characters,
dicts their keys; other values raise `TypeError`. -/
def pyList : PyJson → Except String (List PyJson)
  | .arr elems => .ok elems
  | .str s => .ok (s.data.map (fun c => PyJson.str (String.mk [c])))
  | .obj members => .ok ((dictKeys members).map PyJson.str)
  | _ => .error "TypeError: object is not iterable"

/-- Value of a hexadecimal digit. -/
def hexVal (c : Char) : Option Nat :=
  if c.isDigit then some (c.toNat - 48)
  else if 'a' ≤ c && c ≤ 'f' then some (c.toNat - 87)
  else if 'A' ≤ c && c ≤ 'F' then some (c.toNat - 55)
  else none

/-- Value of four hexadecimal digits. -/
def hex4 (a b c d : Char) : Option Nat :=
  match hexVal a, hexVal b, hexVal c, hexVal d with
  | some x1, some x2, some x3, some x4 => some (((x1 * 16 + x2) * 16 + x3) * 16 + x4)
  | _, _, _, _ => none

/-- Translate a single-character JSON string escape. -/
def jsonEscapeChar (e : Char) : Option Char :=
  if e == '"' then some '"'
  else if e == '\\' then some '\\'
  else if e == '/' then some '/'
  else if e == 'b' then some (Char.ofNat 8)
  else if e == 'f' then some (Char.ofNat 12)
  else if e == 'n' then some '\n'
  else if e == 'r' then some '\r'
  else if e == 't' then some '\t'
  else none

/-- Parse the body of a JSON string (after the opening quote) to code units,
returning them with the input after the closing quote.  Strict mode: raw
control characters and unknown escapes are errors.  Only `\uXXXX` escapes can
contribute surrogate code units; `combineSurrogates` pairs them up. -/
def parseJsonStringUnits : List Char → Except String (List Nat × List Char)
  | [] => .error "Unterminated string"
  | c :: rest =>
    if c == '"' then .ok ([], rest)
    else if c == '\\' then
      match rest with
      | [] => .error "Unterminated string"
      | 'u' :: a :: b :: c2 :: d :: rest3 =>
        match hex4 a b c2 d with
        | none => .error "Invalid hex escape"
        | some n =>
          match parseJsonStringUnits rest3 with
          | .ok (units, r) => .ok (n :: units, r)
          | .error e => .error e
      | e :: rest2 =>
        match jsonEscapeChar e with
        | some ec =>
          match parseJsonStringUnits rest2 with
          | .ok (units, r) => .ok (ec.toNat :: units, r)
          | .error err => .error err
        | none => .error "Invalid escape"
    else if c.toNat < 32 then .error "Invalid control character"
    else
      match parseJsonStringUnits rest with
      | .ok (units, r) => .ok (c.toNat :: units, r)
      | .error e => .error e

/-- Combine adjacent high/low surrogate code units into scalar values, as the
`json` module does for `\uXXXX` pairs.  A lone surrogate (which Python keeps
in the str) is not representable in `Char` and maps to U+FFFD. -/
def combineSurrogates : List Nat → List Char
  | [] => []
  | n :: rest =>
    if 0xD800 ≤ n && n ≤ 0xDBFF then
      match rest with
      | m :: rest2 =>
        if 0xDC00 ≤ m && m ≤ 0xDFFF then
          Char.ofNat (0x10000 + (n - 0xD800) * 0x400 + (m - 0xDC00)) :: combineSurrogates rest2
        else Char.ofNat 0xFFFD :: combineSurrogates (m :: rest2)
      | [] => [Char.ofNat 0xFFFD]
    else if 0xDC00 ≤ n && n ≤ 0xDFFF then Char.ofNat 0xFFFD :: combineSurrogates rest
    else Char.ofNat n :: combineSurrogates rest

/-- Parse a JSON string body to its character content. -/
def parseJsonStringBody (cs : List Char) : Except String (List Char × List Char) :=
  match parseJsonStringUnits cs with
  | .ok (units, r) => .ok (combineSurrogates units, r)
  | .error e => .error e

/-- Decimal digits to a natural number. -/
def digitsToNat (ds : List Char) : Nat := ds.foldl (fun acc c => acc * 10 + (c.toNat - 48)) 0

/-- Continue a JSON number after its integer digits: optional fraction and
exponent per the `json` module's NUMBER_RE; an int results only when both are
absent. -/
def parseNumberTail (neg : Bool) (intDigits : List Char) (rest : List Char) :
    PyJson × List Char :=
  let fracRes : Option (List Char) × List Char :=
    match rest with
    | '.' :: t =>
      let ds := t.takeWhile Char.isDigit
      if ds.isEmpty then (none, rest) else (some ds, t.dropWhile Char.isDigit)
    | _ => (none, rest)
  let rest2 := fracRes.2
  let expRes : Option (List Char) × List Char :=
    match rest2 with
    | e :: t =>
      if e == 'e' || e == 'E' then
        let sgnT : List Char × List Char :=
          match t with
          | s :: u => if s == '+' || s == '-' then ([s], u) else ([], t)
          | [] => ([], t)
        let ds := sgnT.2.takeWhile Char.isDigit
        if ds.isEmpty then (none, rest2)
        else (some (e :: (sgnT.1 ++ ds)), sgnT.2.dropWhile Char.isDigit)
      else (none, rest2)
    | [] => (none, rest2)
  match fracRes.1, expRes.1 with
  | none, none =>
    let v : Int := Int.ofNat (digitsToNat intDigits)
    (PyJson.int (if neg then -v else v), expRes.2)
  | _, _ =>
    let raw := (if neg then "-" else "") ++ String.mk intDigits ++
      (match fracRes.1 with | some f => "." ++ String.mk f | none => "") ++
      (match expRes.1 with | some ex => String.mk ex | none => "")
    (PyJson.float raw, expRes.2)

/-- Parse a JSON number at the head of the input (leading zeros refused as by
the `json` module's regex). -/
def parseNumberStart (cs : List Char) : Except String (PyJson × List Char) :=
  let negCs : Bool × List Char :=
    match cs with
    | '-' :: t => (true, t)
    | _ => (false, cs)
  match negCs.2 with
  | c :: t =>
    if c == '0' then .ok (parseNumberTail negCs.1 [c] t)
    else if c.isDigit then
      .ok (parseNumberTail negCs.1 (c :: t.takeWhile Char.isDigit) (t.dropWhile Char.isDigit))
    else .error "Expecting value"
  | [] => .error "Expecting value"

mutual

/-- Parse one JSON value at the head of the input, fuel-bounded (callers pass
ample fuel: nesting consumes at least one character per level). -/
def parseJsonValue : Nat → List Char → Except String (PyJson × List Char)
  | 0, _ => .error "Fuel exhausted"
  | Nat.succ fuel, cs =>
    match cs with
    | [] => .error "Expecting value"
    | c :: rest =>
      if c == '"' then
        match parseJsonStringBody rest with
        | .ok (content, r) => .ok (PyJson.str (String.mk content), r)
        | .error e => .error e
      else if c == braceOpen then
        let r1 := rest.dropWhile isJsonWs
        match r1 with
        | c2 :: r2 =>
          if c2 == braceClose then .ok (PyJson.obj [], r2)
          else parseJsonObjMembers fuel r1 []
        | [] => .error "Expecting property name"
      else if c == '[' then
        let r1 := rest.dropWhile isJsonWs
        match r1 with
        | ']' :: r2 => .ok (PyJson.arr [], r2)
        | _ => parseJsonArrElems fuel r1 []
      else if c == 'n' then
        match rest with
        | 'u' :: 'l' :: 'l' :: r => .ok (PyJson.null, r)
        | _ => .error "Expecting value"
      else if c == 't' then
        match rest with
        | 'r' :: 'u' :: 'e' :: r => .ok (PyJson.bool true, r)
        | _ => .error "Expecting value"
      else if c == 'f' then
        match rest with
        | 'a' :: 'l' :: 's' :: 'e' :: r => .ok (PyJson.bool false, r)
        | _ => .error "Expecting value"
      else if c == 'N' then
        match rest with
        | 'a' :: 'N' :: r => .ok (PyJson.float "nan", r)
        | _ => .error "Expecting value"
      else if c == 'I' then
        match rest with
        | 'n' :: 'f' :: 'i' :: 'n' :: 'i' :: 't' :: 'y' :: r => .ok (PyJson.float "inf", r)
        | _ => .error "Expecting value"
      else if c == '-' then
        match rest with
        | 'I' :: 'n' :: 'f' :: 'i' :: 'n' :: 'i' :: 't' :: 'y' :: r =>
          .ok (PyJson.float "-inf", r)
        | _ => parseNumberStart cs
      else parseNumberStart cs

/-- Parse the remaining elements of a JSON array (first element at the head of
the input). -/
def parseJsonArrElems : Nat → List Char → List PyJson → Except String (PyJson × List Char)
  | 0, _, _ => .error "Fuel exhausted"
  | Nat.succ fuel, cs, acc =>
    match parseJsonValue fuel cs with
    | .error e => .error e
    | .ok (v, r) =>
      match r.dropWhile isJsonWs with
      | ',' :: r2 => parseJsonArrElems fuel (r2.dropWhile isJsonWs) (acc ++ [v])
      | ']' :: r2 => .ok (PyJson.arr (acc ++ [v]), r2)
      | _ => .error "Expecting delimiter"

/-- Parse the members of a JSON object (first key's opening quote at the head
of the input). -/
def parseJsonObjMembers : Nat → List Char → List (String × PyJson) →
    Except String (PyJson × List Char)
  | 0, _, _ => .error "Fuel exhausted"
  | Nat.succ fuel, cs, acc =>
    match cs with
    | '"' :: rest =>
      match parseJsonStringBody rest with
      | .error e => .error e
      | .ok (key, r) =>
        match r.dropWhile isJsonWs with
        | ':' :: r2 =>
          match parseJsonValue fuel (r2.dropWhile isJsonWs) with
          | .error e => .error e
          | .ok (v, r3) =>
            let acc2 := acc ++ [(String.mk key, v)]
            match r3.dropWhile isJsonWs with
            | ',' :: r4 => parseJsonObjMembers fuel (r4.dropWhile isJsonWs) acc2
            | c2 :: r4 =>
              if c2 == braceClose then .ok (PyJson.obj (dictDedup acc2), r4)
              else .error "Expecting delimiter"
            | [] => .error "Expecting delimiter"
        | _ => .error "Expecting colon"
    | _ => .error "Expecting property name"

end

/-- Model of `json.loads`: skip leading whitespace, parse one value, require
only whitespace after it. -/
def pyJsonLoads (s : String) : Except String PyJson :=
  match parseJsonValue (2 * s.data.length + 8) (s.data.dropWhile isJsonWs) with
  | .error e => .error e
  | .ok (v, rest) =>
    if (rest.dropWhile isJsonWs).isEmpty then .ok v else .error "Extra data"

/-- Index of the first occurrence of `c`, Python `s.find(c)` (as an Option). -/
def firstIdxOf (c : Char) (cs : List Char) : Option Nat := cs.findIdx? (· == c)

/-- Index of the last occurrence of `c`, Python `s.rfind(c)` (as an Option). -/
def lastIdxOf (c : Char) (cs : List Char) : Option Nat :=
  match cs.reverse.findIdx? (· == c) with
  | some i => some (cs.length - 1 - i)
  | none => none

/-- Model of `_loose_json_extract`: the substring from the first opening brace
to the last closing brace when both exist in that order, else the whole
text. -/
def looseJsonExtract (text : String) : String :=
  let cs := text.data
  match firstIdxOf braceOpen cs, lastIdxOf braceClose cs with
  | some s, some e =>
    if s < e then String.mk ((cs.drop s).take (e + 1 - s)) else text
  | _, _ => text

/-- Coerce one action-item entry as `_coerce_structured_notes` does: a dict
reads task/owner/due (missing or falsy values become empty strings), anything
else lands stringified in `task`. -/
def coerceActionItem (itm : PyJson) : ActionItem :=
  match itm with
  | .obj ms =>
    { task := pyStr (pyOr (dictGet ms "task" (.str "")) (.str ""))
      owner := pyStr (pyOr (dictGet ms "owner" (.str "")) (.str ""))
      due := pyStr (pyOr (dictGet ms "due" (.str "")) (.str "")) }
  | _ => { task := pyStr itm, owner := "", due := "" }

/-- The sentiment literals accepted unchanged by normalization. -/
def sentimentLiterals : List String := ["Positive", "Neutral", "Negative"]

/-- Normalization of a parsed JSON value into `StructuredNotes`, exactly as
the try-block of `_coerce_structured_notes` lines 119-145: `.get` on a
non-dict and `list(…)` on a non-iterable raise (modelled as `.error`), lists
are stringified and capped at 10, sentiment collapses outside the three
literals. -/
def normalizeJson (data : PyJson) : Except String StructuredNotes :=
  match data with
  | .obj members =>
    let exec_sum := pyStr (pyOr (dictGet members "executive_summary" (.str "")) (.str ""))
    match pyList (pyOr (dictGet members "key_points" (.arr [])) (.arr [])) with
    | .error e => .error e
    | .ok key_points =>
      match pyList (pyOr (dictGet members "action_items" (.arr [])) (.arr [])) with
      | .error e => .error e
      | .ok action_items =>
        match pyList (pyOr (dictGet members "decisions" (.arr [])) (.arr [])) with
        | .error e => .error e
        | .ok decisions =>
          let sentiment := pyStr (pyOr (dictGet members "sentiment" (.str "")) (.str "Unknown"))
          let coerced_ai := action_items.map coerceActionItem
          .ok
            { executive_summary := exec_sum
              key_points := (key_points.map pyStr).take 10
              action_items := coerced_ai.take 10
              decisions := (decisions.map pyStr).take 10
              sentiment := if sentimentLiterals.contains sentiment then sentiment else "Unknown" }
  | _ => .error "AttributeError: no attribute get"

/-- A bullet marker of the regex `^[\-\*•]`. -/
def isBulletChar (c : Char) : Bool := c == '-' || c == '*' || c == bulletGlyph

/-- Scan for the multiline regex `^[\-\*•]\s+(.*)$`: at a line start, a
bullet marker followed by at least one whitespace character; `\s+` consumes
greedily (across newlines), `(.*)$` captures the rest of the line it stops
on; scanning resumes at the match end.  Fueled; callers pass length + 1
(every step consumes at least one character). -/
def bulletScan : Nat → List Char → Bool → List (List Char)
  | 0, _, _ => []
  | Nat.succ fuel, cs, lineStart =>
    match cs with
    | [] => []
    | c :: rest =>
      if lineStart && isBulletChar c then
        match rest with
        | c2 :: _ =>
          if isPyWs c2 then
            let afterWs := rest.dropWhile isPyWs
            let cap := afterWs.takeWhile (fun x => x != '\n')
            let rest3 := afterWs.dropWhile (fun x => x != '\n')
            cap :: bulletScan fuel rest3 false
          else bulletScan fuel rest false
        | [] => []
      else bulletScan fuel rest (c == '\n')

/-- The captures of `re.findall(r"(?m)^[\-\*•]\s+(.*)$", text)`. -/
def bulletCaptures (cs : List Char) : List (List Char) := bulletScan (cs.length + 1) cs true

/-- Line-break characters of Python `str.splitlines` (besides `\r\n`). -/
def isLineBreakChar (c : Char) : Bool :=
  c == '\n' || c == '\r' || c == '\x0b' || c == '\x0c' || c.toNat == 28 ||
    c.toNat == 29 || c.toNat == 30 || c.toNat == 133 || c.toNat == 8232 || c.toNat == 8233

/-- Worker for `pySplitlines`, accumulating the current line reversed. -/
def splitlinesGo (acc cs : List Char) : List (List Char) :=
  match cs with
  | [] => if acc.isEmpty then [] else [acc.reverse]
  | '\r' :: '\n' :: rest => acc.reverse :: splitlinesGo [] rest
  | c :: rest =>
    if isLineBreakChar c then acc.reverse :: splitlinesGo [] rest
    else splitlinesGo (c :: acc) rest

/-- Python `s.splitlines()`: no trailing empty line for a terminal break. -/
def pySplitlines (s : String) : List (List Char) := splitlinesGo [] s.data

/-- Case-insensitive prefix match of a lowercase pattern, returning the rest
of the input on success. -/
def matchCI : List Char → List Char → Option (List Char)
  | [], cs => some cs
  | _ :: _, [] => none
  | p :: ps, c :: cs => if c.toLower == p then matchCI ps cs else none

/-- Does the word match here with a word boundary after it?  (The boundary
before is the caller's job.) -/
def wordBoundedAt (w : List Char) (cs : List Char) : Bool :=
  match matchCI w cs with
  | none => false
  | some [] => true
  | some (c :: _) => !isWordChar c

/-- Scan for `(?i)\b<w>\b`: a position whose previous character is not a word
character, the word, and a non-word character (or end) after. -/
def hasWordFrom (w : List Char) : Bool → List Char → Bool
  | _, [] => false
  | prevIsWord, c :: rest =>
    (!prevIsWord && wordBoundedAt w (c :: rest)) || hasWordFrom w (isWordChar c) rest

/-- Python `re.search(r"(?i)\b<w>\b", text) is not None` for a lowercase
word `w`. -/
def hasWord (w : String) (cs : List Char) : Bool := hasWordFrom w.data false cs

/-- Any of the words found with both boundaries (alternation of the source
regexes). -/
def hasAnyWord (ws : List String) (cs : List Char) : Bool := ws.any (fun w => hasWord w cs)

/-- A successful match of `<key>\s*[:\-]\s*([^|,;]+)` at a position: the
captured group, the input after the match, and the last matched character
(needed for the word-boundary state of a continuing scan). -/
structure KeyValMatch where
  capture : List Char
  rest : List Char
  lastChar : Char

/-- Try `(?i)<key>\s*[:\-]\s*([^|,;]+)` at the head of the input.  The second
`\s*` is greedy but backtracks one character when `[^|,;]+` would otherwise
have nothing to match, exactly as the re engine does. -/
def matchKeyValAt (key : List Char) (cs : List Char) : Option KeyValMatch :=
  match matchCI key cs with
  | none => none
  | some r1 =>
    match r1.dropWhile isPyWs with
    | sep :: r3 =>
      if sep == ':' || sep == '-' then
        let a0 := r3.takeWhile isPyWs
        let b0 := r3.dropWhile isPyWs
        match b0 with
        | b :: _ =>
          if sepChars.contains b then
            match a0.getLast? with
            | some w => some ⟨[w], b0, w⟩
            | none => none
          else
            let cap := b0.takeWhile (fun x => !sepChars.contains x)
            some ⟨cap, b0.dropWhile (fun x => !sepChars.contains x), cap.getLastD b⟩
        | [] =>
          match a0.getLast? with
          | some w => some ⟨[w], b0, w⟩
          | none => none
      else none
    | [] => none

/-- Python `re.search(r"(?i)<key>\s*[:\-]\s*([^|,;]+)", line)`, returning the
first capture (note: the search pattern has no word boundary). -/
def searchKeyVal (key : List Char) : List Char → Option (List Char)
  | [] => none
  | c :: rest =>
    match matchKeyValAt key (c :: rest) with
    | some m => some m.capture
    | none => searchKeyVal key rest

/-- Worker for `re.sub(r"(?i)\b(owner|due)\s*[:\-]\s*[^|,;]+", "", line)`:
scan tracking whether the previous character is a word character (for the
`\b`), removing each match.  Fueled; callers pass length + 1. -/
def subKeyValGo : Nat → Bool → List Char → List Char
  | 0, _, cs => cs
  | Nat.succ fuel, prevIsWord, cs =>
    match cs with
    | [] => []
    | c :: rest =>
      if !prevIsWord then
        match matchKeyValAt ['o', 'w', 'n', 'e', 'r'] cs with
        | some m => subKeyValGo fuel (isWordChar m.lastChar) m.rest
        | none =>
          match matchKeyValAt ['d', 'u', 'e'] cs with
          | some m => subKeyValGo fuel (isWordChar m.lastChar) m.rest
          | none => c :: subKeyValGo fuel (isWordChar c) rest
      else c :: subKeyValGo fuel (isWordChar c) rest

/-- The owner/due sub of the action-item heuristic. -/
def subKeyVal (cs : List Char) : List Char := subKeyValGo (cs.length + 1) false cs

/-- Try `(?i)\b<w>\b[:\-]?` at the head of the input (boundary before is the
caller's job): the rest after the match and the last matched character. -/
def matchWordLabel (w : List Char) (cs : List Char) : Option (List Char × Char) :=
  match matchCI w cs with
  | none => none
  | some r1 =>
    let boundaryOk :=
      match r1 with
      | [] => true
      | c :: _ => !isWordChar c
    if boundaryOk then
      match r1 with
      | c :: r2 => if c == ':' || c == '-' then some (r2, c) else some (r1, w.getLastD 'x')
      | [] => some ([], w.getLastD 'x')
    else none

/-- Try the alternation `(?i)\b(action|todo|task)\b[:\-]?` at the head. -/
def matchActionLabelAt (cs : List Char) : Option (List Char × Char) :=
  match matchWordLabel ['a', 'c', 't', 'i', 'o', 'n'] cs with
  | some m => some m
  | none =>
    match matchWordLabel ['t', 'o', 'd', 'o'] cs with
    | some m => some m
    | none => matchWordLabel ['t', 'a', 's', 'k'] cs

/-- Worker for `re.sub(r"(?i)\b(action|todo|task)\b[:\-]?", "", line)`.
Fueled; callers pass length + 1. -/
def subActionLabelGo : Nat → Bool → List Char → List Char
  | 0, _, cs => cs
  | Nat.succ fuel, prevIsWord, cs =>
    match cs with
    | [] => []
    | c :: rest =>
      if !prevIsWord then
        match matchActionLabelAt cs with
        | some (r, lastC) => subActionLabelGo fuel (isWordChar lastC) r
        | none => c :: subActionLabelGo fuel (isWordChar c) rest
      else c :: subActionLabelGo fuel (isWordChar c) rest

/-- The action/todo/task label sub of the action-item heuristic. -/
def subActionLabel (cs : List Char) : List Char := subActionLabelGo (cs.length + 1) false cs

/-- The word alternation qualifying a line as an action line. -/
def actionWords : List String := ["action", "todo", "task"]

/-- The per-line action-item heuristic of `_coerce_structured_notes` lines
158-169: a qualifying line yields owner/due captures and a task left over
after both subs and an edge strip; an empty task drops the line. -/
def actionItemOfLine (line : List Char) : Option ActionItem :=
  if hasAnyWord actionWords line then
    let owner :=
      match searchKeyVal ['o', 'w', 'n', 'e', 'r'] line with
      | some cap => pyStrip (String.mk cap)
      | none => ""
    let due :=
      match searchKeyVal ['d', 'u', 'e'] line with
      | some cap => pyStrip (String.mk cap)
      | none => ""
    let task := pyStripChars [' ', '-', ':', bulletGlyph] (String.mk (subActionLabel (subKeyVal line)))
    if task != "" then some ⟨task, owner, due⟩ else none
  else none

/-- The heuristic fallback of `_coerce_structured_notes` lines 149-190. -/
def heuristicNotes (ai_text : String) : StructuredNotes :=
  let cs := ai_text.data
  let exec_sum := pyStrip ai_text
  let key_points := ((bulletCaptures cs).map (fun b => pyStrip (String.mk b))).take 10
  let lines := pySplitlines ai_text
  let action_items := (lines.filterMap actionItemOfLine).take 10
  let decisions :=
    ((lines.filter (fun l => hasAnyWord ["decision", "decided"] l)).map
      (fun l => pyStrip (String.mk l))).take 10
  let sentiment :=
    if hasWord "positive" cs then "Positive"
    else if hasWord "neutral" cs then "Neutral"
    else if hasWord "negative" cs then "Negative"
    else "Unknown"
  { executive_summary := pyTake 2000 exec_sum
    key_points := key_points
    action_items := action_items
    decisions := decisions
    sentiment := sentiment }

/-- Model of `_coerce_structured_notes` lines 110-190: extract the loose JSON
substring, try `json.loads` plus normalization under a try/except whose
handler runs the heuristic fallback on the original text. -/
def coerceStructuredNotesE (ai_text : String) (transcript : String) :
    Except String StructuredNotes :=
  let raw := looseJsonExtract ai_text
  tryCatch
    (do
      let data ← pyJsonLoads raw
      normalizeJson data)
    (fun _ => pure (heuristicNotes ai_text))

/-- The staged form of the coercion: a single parse attempt on the
brace-extracted substring, the heuristic on any failure. -/
def stagedCoerce (ai_text transcript : String) : StructuredNotes :=
  match pyJsonLoads (looseJsonExtract ai_text) with
  | .ok data =>
    match normalizeJson data with
    | .ok n => n
    | .error _ => heuristicNotes ai_text
  | .error _ => heuristicNotes ai_text

/-- Parser following the tier ordering the spec describes, for comparison
with the code: a direct strict parse of the raw response first (Tier 1, any
normalization failure falling through to the heuristic), brace-substring
extraction and reparse only when the direct parse fails (Tier 2), then the
heuristic (Tier 3). -/
def specTierParse (raw_response transcript : String) : StructuredNotes :=
  match pyJsonLoads raw_response with
  | .ok data =>
    match normalizeJson data with
    | .ok n => n
    | .error _ => heuristicNotes raw_response
  | .error _ =>
    let cs := raw_response.data
    match firstIdxOf braceOpen cs, lastIdxOf braceClose cs with
    | some s, some e =>
      if s < e then
        match pyJsonLoads (String.mk ((cs.drop s).take (e + 1 - s))) with
        | .ok data =>
          match normalizeJson data with
          | .ok n => n
          | .error _ => heuristicNotes raw_response
        | .error _ => heuristicNotes raw_response
      else heuristicNotes raw_response
    | _, _ => heuristicNotes raw_response

/-- The degenerate summary built by the except-handler of `summarize_text`
lines 249-255. -/
def degenerateNotes (transcript : String) : StructuredNotes :=
  { executive_summary := pyTake 400 transcript ++ (if 400 < pyLen transcript then "..." else "")
    key_points := []
    action_items := []
    decisions := []
    sentiment := "Unknown" }

/-- Model of `_code_to_lang_name`: lowercase lookup in the fixed map,
defaulting to English (`code or ""` only affects the empty string, whose
lookup misses anyway). -/
def langNameMap : List (String × String) :=
  [("en", "English"), ("ur", "Urdu"), ("hi", "Hindi"), ("auto", "English"),
   ("english", "English"), ("urdu", "Urdu"), ("hindi", "Hindi")]

/-- Resolve a language selector to the prompt's language name. -/
def codeToLangName (code : String) : String :=
  (langNameMap.lookup (pyLower code)).getD "English"

/-- The prompt text before the resolved language name. -/
def promptHeader : String :=
  "\nYou are a professional AI meeting assistant.\nSummarize the following transcript into structured notes in "

/-- The prompt text between the language name and the truncated transcript. -/
def promptSchema : String :=
  ".\n\nReturn ONLY valid JSON (no markdown, no code fences, no extra text) with this exact schema:\n\x7b\n  \"executive_summary\": \"string, 3-6 sentences\",\n  \"key_points\": [\"bullet 1\", \"bullet 2\", \"... (max 10)\"],\n  \"action_items\": [\n    \x7b\"task\": \"what needs to be done\", \"owner\": \"person or empty\", \"due\": \"date or empty\"\x7d\n  ],\n  \"decisions\": [\"decision 1\", \"... (max 10)\"],\n  \"sentiment\": \"Positive\" | \"Neutral\" | \"Negative\"\n\x7d\n\nGuidelines:\n- Be concise and factually accurate (aim 90%+).\n- Extract explicit owners/dates if mentioned; otherwise use empty strings.\n- Do not include any keys other than the schema.\n- Do not add explanations outside JSON.\n\nTranscript:\n"

/-- The full instruction prompt of `summarize_text` lines 203-226, with the
transcript truncated to its first 12000 characters. -/
def buildSummarizePrompt (transcript : String) (target_language : String) : String :=
  promptHeader ++ codeToLangName target_language ++ promptSchema ++ pyTake 12000 transcript ++ "\n"

/-- Model of `summarize_text` lines 228-255.  The provider call is replaced
by its result: `none` models the call raising, `some ai_text` a successful
call returning `ai_text` (already "" when the response carries no choices).
The try/except wraps both the call and the coercion. -/
def summarizeText (genResult : Option String) (transcript : String)
    (target_language : String) : StructuredNotes :=
  match genResult with
  | some ai_text =>
    match coerceStructuredNotesE ai_text transcript with
    | .ok structured => structured
    | .error _ => degenerateNotes transcript
  | none => degenerateNotes transcript

/-- Serialize an action item back to JSON (the shape `json.dumps` would
re-read). -/
def actionItemToJson (it : ActionItem) : PyJson :=
  .obj [("task", .str it.task), ("owner", .str it.owner), ("due", .str it.due)]

/-- Serialize a notes record back to JSON (the shape `json.dumps` would
re-read). -/
def notesToJson (n : StructuredNotes) : PyJson :=
  .obj [("executive_summary", .str n.executive_summary),
        ("key_points", .arr (n.key_points.map PyJson.str)),
        ("action_items", .arr (n.action_items.map actionItemToJson)),
        ("decisions", .arr (n.decisions.map PyJson.str)),
        ("sentiment", .str n.sentiment)]

/-- The plain-prose response of the spec's Scenario C. -/
def scenarioCText : String :=
  "- Discussed budget\n- Action: Send report owner: Ana due: Friday\nDecision: Ship v2. Overall sentiment was positive."

/-- A valid JSON document (an array) that is not delimited by its first
opening and last closing brace. -/
def jsonArrayDoc : String := "[\x7b\"executive_summary\":\"A\"\x7d]"

/-- A JSON object with fifteen key points (the spec's Scenario F shape). -/
def fifteenKeyPointsJson : String :=
  "\x7b\"key_points\":[\"p01\",\"p02\",\"p03\",\"p04\",\"p05\",\"p06\",\"p07\",\"p08\",\"p09\",\"p10\",\"p11\",\"p12\",\"p13\",\"p14\",\"p15\"]\x7d"

/-- A run of `n` letters. -/
def aRun (n : Nat) : String := String.mk (List.replicate n 'a')

/-- The notes produced from `rtInput`, used by the round-trip witness. -/
def rtNotes : StructuredNotes :=
  { executive_summary := "E", key_points := [], action_items := [], decisions := [],
    sentiment := "Unknown" }

/-- A minimal schema-shaped JSON response. -/
def rtInput : String := "\x7b\"executive_summary\":\"E\"\x7d"

/-- The serialization of `rtNotes`, as `json.dumps` would print it. -/
def rtSerialized : String :=
  "\x7b\"executive_summary\":\"E\",\"key_points\":[],\"action_items\":[],\"decisions\":[],\"sentiment\":\"Unknown\"\x7d"


theorem coerceE_eq_staged (a t : String) :
    coerceStructuredNotesE a t = Except.ok (stagedCoerce a t) := by
  unfold coerceStructuredNotesE stagedCoerce
  cases h1 : pyJsonLoads (looseJsonExtract a) with
  | ok data =>
    cases h2 : normalizeJson data with
    | ok n =>
      simp [tryCatch, tryCatchThe, MonadExceptOf.tryCatch, Except.tryCatch, h1, h2, bind,
        Except.bind]
    | error e =>
      simp [tryCatch, tryCatchThe, MonadExceptOf.tryCatch, Except.tryCatch, h1, h2, bind,
        Except.bind, pure, Except.pure]
  | error e =>
    simp [tryCatch, tryCatchThe, MonadExceptOf.tryCatch, Except.tryCatch, h1, bind,
      Except.bind, pure, Except.pure]

theorem normalizeJson_invariants (j : PyJson) (n : StructuredNotes)
    (h : normalizeJson j = Except.ok n) :
    n.key_points.length ≤ 10 ∧ n.action_items.length ≤ 10 ∧ n.decisions.length ≤ 10 ∧
      n.sentiment ∈ (["Positive", "Neutral", "Negative", "Unknown"] : List String) := by
  unfold normalizeJson at h
  cases j with
  | obj members =>
    simp only at h
    cases h1 : pyList (pyOr (dictGet members "key_points" (.arr [])) (.arr [])) with
    | error e => rw [h1] at h; exact absurd h (by simp)
    | ok kps =>
      rw [h1] at h
      cases h2 : pyList (pyOr (dictGet members "action_items" (.arr [])) (.arr [])) with
      | error e => rw [h2] at h; exact absurd h (by simp)
      | ok ais =>
        rw [h2] at h
        cases h3 : pyList (pyOr (dictGet members "decisions" (.arr [])) (.arr [])) with
        | error e => rw [h3] at h; exact absurd h (by simp)
        | ok decs =>
          rw [h3] at h
          simp only [Except.ok.injEq] at h
          subst h
          refine ⟨List.length_take_le _ _, List.length_take_le _ _, List.length_take_le _ _, ?_⟩
          simp only
          split
          case isTrue hc =>
            have hm := List.mem_of_elem_eq_true hc
            simp only [sentimentLiterals, List.mem_cons, List.mem_singleton,
              List.not_mem_nil, or_false] at hm
            simp only [List.mem_cons, List.mem_singleton]
            tauto
          case isFalse hc => simp
  | null => exact absurd h (by simp)
  | bool b => exact absurd h (by simp)
  | int m => exact absurd h (by simp)
  | float raw => exact absurd h (by simp)
  | str s => exact absurd h (by simp)
  | arr elems => exact absurd h (by simp)

theorem heuristicNotes_invariants (s : String) :
    (heuristicNotes s).key_points.length ≤ 10 ∧ (heuristicNotes s).action_items.length ≤ 10 ∧
      (heuristicNotes s).decisions.length ≤ 10 ∧
      (heuristicNotes s).sentiment ∈ (["Positive", "Neutral", "Negative", "Unknown"] : List String) := by
  unfold heuristicNotes
  refine ⟨List.length_take_le _ _, List.length_take_le _ _, List.length_take_le _ _, ?_⟩
  simp only
  split
  · simp
  · split
    · simp
    · split <;> simp

theorem pyTake_of_le (n : Nat) (t : String) (h : pyLen t ≤ n) : pyTake n t = t := by
  unfold pyTake pyLen at *
  rw [List.take_of_length_le h]

theorem pyStr_str (s : String) : pyStr (.str s) = s := rfl

theorem pyOr_arr (l : List PyJson) : pyOr (.arr l) (.arr []) = .arr l := by
  cases l <;> simp [pyOr, pyTruthy]

theorem pyOr_str_pyStr (s : String) : pyStr (pyOr (.str s) (.str "")) = s := by
  by_cases h : s = "" <;> simp [pyOr, pyTruthy, h, pyStr_str]

theorem map_pyStr_str (l : List String) : (l.map PyJson.str).map pyStr = l := by
  induction l with
  | nil => rfl
  | cons a l ih => simp [pyStr_str, ih]

theorem coerceActionItem_toJson (it : ActionItem) :
    coerceActionItem (actionItemToJson it) = it := by
  show ActionItem.mk (pyStr (pyOr (.str it.task) (.str "")))
      (pyStr (pyOr (.str it.owner) (.str ""))) (pyStr (pyOr (.str it.due) (.str ""))) = it
  rw [pyOr_str_pyStr, pyOr_str_pyStr, pyOr_str_pyStr]

theorem map_coerceActionItem_toJson (l : List ActionItem) :
    (l.map actionItemToJson).map coerceActionItem = l := by
  induction l with
  | nil => rfl
  | cons a l ih => simp [coerceActionItem_toJson, ih]

theorem dictGet_notes_exec (a b c d e dflt : PyJson) :
    dictGet [("executive_summary", a), ("key_points", b), ("action_items", c),
      ("decisions", d), ("sentiment", e)] "executive_summary" dflt = a := rfl

theorem dictGet_notes_kps (a b c d e dflt : PyJson) :
    dictGet [("executive_summary", a), ("key_points", b), ("action_items", c),
      ("decisions", d), ("sentiment", e)] "key_points" dflt = b := rfl

theorem dictGet_notes_ais (a b c d e dflt : PyJson) :
    dictGet [("executive_summary", a), ("key_points", b), ("action_items", c),
      ("decisions", d), ("sentiment", e)] "action_items" dflt = c := rfl

theorem dictGet_notes_decs (a b c d e dflt : PyJson) :
    dictGet [("executive_summary", a), ("key_points", b), ("action_items", c),
      ("decisions", d), ("sentiment", e)] "decisions" dflt = d := rfl

theorem dictGet_notes_sent (a b c d e dflt : PyJson) :
    dictGet [("executive_summary", a), ("key_points", b), ("action_items", c),
      ("decisions", d), ("sentiment", e)] "sentiment" dflt = e := rfl

theorem normalizeJson_notesToJson (n : StructuredNotes)
    (hk : n.key_points.length ≤ 10) (ha : n.action_items.length ≤ 10)
    (hd : n.decisions.length ≤ 10)
    (hs : n.sentiment ∈ (["Positive", "Neutral", "Negative", "Unknown"] : List String)) :
    normalizeJson (notesToJson n) = Except.ok n := by
  obtain ⟨es, kps, ais, decs, sent⟩ := n
  simp only at hk ha hd hs
  simp only [normalizeJson, notesToJson, dictGet_notes_exec, dictGet_notes_kps,
    dictGet_notes_ais, dictGet_notes_decs, dictGet_notes_sent]
  rw [pyOr_arr, pyOr_arr, pyOr_arr]
  simp only [pyList]
  simp only [List.mem_cons, List.mem_singleton, List.not_mem_nil, or_false] at hs
  rcases hs with rfl | rfl | rfl | rfl <;>
    rw [pyOr_str_pyStr, map_pyStr_str, map_pyStr_str, map_coerceActionItem_toJson,
      List.take_of_length_le hk, List.take_of_length_le ha, List.take_of_length_le hd] <;>
    rfl

theorem char_toNat_ofNat_valid (n : Nat) (h : n < 0xD800) : (Char.ofNat n).toNat = n := by
  unfold Char.ofNat
  rw [dif_pos (Or.inl h)]
  simp [Char.ofNatAux, Char.toNat, UInt32.toNat]

theorem char_toLower_idem (c : Char) : c.toLower.toLower = c.toLower := by
  simp only [Char.toLower]
  by_cases h : c.toNat ≥ 65 ∧ c.toNat ≤ 90
  · rw [if_pos h, if_neg]
    have hv : (Char.ofNat (c.toNat + 32)).toNat = c.toNat + 32 :=
      char_toNat_ofNat_valid _ (by omega)
    rw [hv]
    omega
  · rw [if_neg h, if_neg h]

theorem pyLower_idem (s : String) : pyLower (pyLower s) = pyLower s := by
  unfold pyLower
  simp only [List.map_map]
  congr 1
  exact List.map_congr_left (fun c _ => char_toLower_idem c)

/-- Claim C1: `_coerce_structured_notes` is total — for every pair of strings
it terminates with a `StructuredNotes` record and never propagates an
exception (its try/except absorbs every parse or normalization failure into
the heuristic fallback). -/
theorem parse_is_total :
    ∀ ai_text transcript : String,
      ∃ n, coerceStructuredNotesE ai_text transcript = Except.ok n :=
  fun a t => ⟨stagedCoerce a t, coerceE_eq_staged a t⟩

theorem stagedCoerce_invariants (a t : String) :
    (stagedCoerce a t).key_points.length ≤ 10 ∧ (stagedCoerce a t).action_items.length ≤ 10 ∧
      (stagedCoerce a t).decisions.length ≤ 10 ∧
      (stagedCoerce a t).sentiment ∈ (["Positive", "Neutral", "Negative", "Unknown"] : List String) := by
  unfold stagedCoerce
  cases h1 : pyJsonLoads (looseJsonExtract a) with
  | ok data =>
    cases h2 : normalizeJson data with
    | ok m => simpa [h2] using normalizeJson_invariants data m h2
    | error e => simpa [h2] using heuristicNotes_invariants a
  | error e => simpa using heuristicNotes_invariants a

/-- Claim C2: on every extraction path the result satisfies the caps —
key_points, action_items and decisions each hold at most 10 entries — and
excess candidates are truncated keeping the first 10 in order, as the
fifteen-key-point document shows concretely. -/
theorem cap_invariant :
    (∀ a t n, coerceStructuredNotesE a t = Except.ok n →
      n.key_points.length ≤ 10 ∧ n.action_items.length ≤ 10 ∧ n.decisions.length ≤ 10) ∧
    stagedCoerce fifteenKeyPointsJson "" =
      { executive_summary := ""
        key_points := ["p01", "p02", "p03", "p04", "p05", "p06", "p07", "p08", "p09", "p10"]
        action_items := []
        decisions := []
        sentiment := "Unknown" } := by
  constructor
  · intro a t n h
    rw [coerceE_eq_staged] at h
    injection h with h
    subst h
    have := stagedCoerce_invariants a t
    exact ⟨this.1, this.2.1, this.2.2.1⟩
  · decide

/-- Witness for C2 at a concrete input. -/
theorem cap_invariant_witness :
    (stagedCoerce "some plain text" "").key_points.length ≤ 10 ∧
      (stagedCoerce "some plain text" "").action_items.length ≤ 10 ∧
      (stagedCoerce "some plain text" "").decisions.length ≤ 10 :=
  cap_invariant.1 "some plain text" "" _ (coerceE_eq_staged "some plain text" "")

/-- Claim C3: on every extraction path the sentiment of the result is one of
the four literals Positive, Neutral, Negative, Unknown. -/
theorem sentiment_closure :
    ∀ a t n, coerceStructuredNotesE a t = Except.ok n →
      n.sentiment ∈ (["Positive", "Neutral", "Negative", "Unknown"] : List String) := by
  intro a t n h
  rw [coerceE_eq_staged] at h
  injection h with h
  subst h
  exact (stagedCoerce_invariants a t).2.2.2

/-- Witness for C3 at a concrete input. -/
theorem sentiment_closure_witness :
    (stagedCoerce "the mood was average" "").sentiment ∈
      (["Positive", "Neutral", "Negative", "Unknown"] : List String) :=
  sentiment_closure "the mood was average" "" _ (coerceE_eq_staged "the mood was average" "")

/-- Counterexample to claim C4 as stated: the code does not attempt a direct
parse of the raw response before brace extraction.  On the valid JSON
document `[\x7b"executive_summary":"A"\x7d]` the spec's tier ordering (direct
parse succeeds, normalization of the array fails, heuristic) and the code
(parse of the brace-extracted inner object succeeds) produce different
results. -/
theorem tier_ordering_counterexample :
    stagedCoerce jsonArrayDoc "" ≠ specTierParse jsonArrayDoc "" ∧
      coerceStructuredNotesE jsonArrayDoc "" = Except.ok (stagedCoerce jsonArrayDoc "") :=
  ⟨by decide, coerceE_eq_staged jsonArrayDoc ""⟩

/-- Claim C4 (amended): the parser's only JSON parse attempt is on the
substring from the first opening to the last closing brace (the whole text
when no such pair exists); there is no prior direct parse of raw_response.
Consequently a valid JSON document is normalized as a whole only when its
first opening and last closing brace delimit it (as for any JSON object
document); a valid JSON array document is instead reduced to its inner brace
substring, as the concrete conjunct shows. -/
theorem tier_ordering_amended :
    (∀ a t, coerceStructuredNotesE a t =
      Except.ok
        (match pyJsonLoads (looseJsonExtract a) with
        | .ok data =>
          match normalizeJson data with
          | .ok n => n
          | .error _ => heuristicNotes a
        | .error _ => heuristicNotes a)) ∧
    stagedCoerce jsonArrayDoc "" =
      { executive_summary := "A", key_points := [], action_items := [], decisions := [],
        sentiment := "Unknown" } :=
  ⟨fun a t => coerceE_eq_staged a t, by decide⟩

/-- Counterexample to claim C5 as stated: on the Scenario C prose the
heuristic also captures the bulleted action line as a key point, and the
owner capture `[^|,;]+` runs to the end of the line. -/
theorem scenario_c_counterexample :
    (stagedCoerce scenarioCText "").key_points ≠ ["Discussed budget"] ∧
      (stagedCoerce scenarioCText "").action_items.map ActionItem.owner ≠ ["Ana"] := by
  decide

/-- Claim C5 (amended): on the Scenario C prose the heuristic tier returns
key_points `["Discussed budget", "Action: Send report owner: Ana due: Friday"]`
(the action bullet is also a bullet), exactly one action item whose task is
"Send report", whose owner is "Ana due: Friday" (the capture runs to end of
line, containing "Ana") and whose due is "Friday", the stated decisions
list, and sentiment Positive. -/
theorem scenario_c_amended :
    stagedCoerce scenarioCText "" =
      { executive_summary := scenarioCText
        key_points := ["Discussed budget", "Action: Send report owner: Ana due: Friday"]
        action_items := [{ task := "Send report", owner := "Ana due: Friday", due := "Friday" }]
        decisions := ["Decision: Ship v2. Overall sentiment was positive."]
        sentiment := "Positive" } := by
  decide

/-- Claim C6: when the provider call raises, `summarize_text` returns the
degenerate record — the first 400 characters of the transcript with an
ellipsis appended exactly when the transcript is longer than 400 characters,
empty lists, Unknown sentiment — and a successful call never reaches that
fallback, however unparsable its text: the result is always the parser's. -/
theorem degenerate_fallback_locality :
    (∀ t l, summarizeText none t l =
      { executive_summary := if 400 < pyLen t then pyTake 400 t ++ "..." else t
        key_points := [], action_items := [], decisions := [], sentiment := "Unknown" }) ∧
    (∀ a t l, summarizeText (some a) t l = stagedCoerce a t) := by
  constructor
  · intro t l
    show degenerateNotes t = _
    unfold degenerateNotes
    by_cases h : 400 < pyLen t
    · simp [h]
    · simp [h, pyTake_of_le 400 t (Nat.le_of_not_lt h)]
  · intro a t l
    show (match coerceStructuredNotesE a t with
      | .ok structured => structured
      | .error _ => degenerateNotes t) = _
    rw [coerceE_eq_staged]

theorem findIdx?_replicate_none (p : Char → Bool) (a : Char) (h : p a = false) :
    ∀ n, List.findIdx? p (List.replicate n a) = none := by
  intro n
  induction n with
  | zero => rfl
  | succ k ih => simp [List.replicate_succ, List.findIdx?_cons, h, ih]

theorem dropWhile_replicate_a (p : Char → Bool) (h : p 'a' = false) (n : Nat) :
    List.dropWhile p (List.replicate n 'a') = List.replicate n 'a' := by
  cases n with
  | zero => rfl
  | succ k => rw [List.replicate_succ, List.dropWhile_cons, h]; simp

theorem pyStrip_aRun (n : Nat) : pyStrip (aRun n) = aRun n := by
  unfold pyStrip aRun stripWhileList
  congr 1
  show ((((List.replicate n 'a').dropWhile isPyWs).reverse.dropWhile isPyWs).reverse) = _
  rw [dropWhile_replicate_a isPyWs (by decide), List.reverse_replicate,
    dropWhile_replicate_a isPyWs (by decide), List.reverse_replicate]

theorem pyTake_aRun (n m : Nat) : pyTake n (aRun m) = aRun (min n m) := by
  unfold pyTake aRun
  congr 1
  exact List.take_replicate 'a' n m

theorem looseJsonExtract_aRun (n : Nat) : looseJsonExtract (aRun n) = aRun n := by
  unfold looseJsonExtract firstIdxOf
  simp only [show (aRun n).data = List.replicate n 'a' from rfl,
    findIdx?_replicate_none (· == braceOpen) 'a' (by decide) n]

theorem pyJsonLoads_aRun_error (n : Nat) :
    pyJsonLoads (aRun (n + 1)) = Except.error "Expecting value" := by
  unfold pyJsonLoads
  rw [show (aRun (n + 1)).data = List.replicate (n + 1) 'a' from rfl,
    dropWhile_replicate_a isJsonWs (by decide), List.replicate_succ,
    show ('a' :: List.replicate n 'a').length = n + 1 from by simp,
    show 2 * (n + 1) + 8 = (2 * n + 9) + 1 from by omega]
  rw [show parseJsonValue ((2 * n + 9) + 1) ('a' :: List.replicate n 'a') =
      Except.error "Expecting value" from rfl]

theorem stagedCoerce_aRun_heuristic (n : Nat) :
    stagedCoerce (aRun (n + 1)) "" = heuristicNotes (aRun (n + 1)) := by
  unfold stagedCoerce
  rw [looseJsonExtract_aRun, pyJsonLoads_aRun_error]

theorem aRun_len (n : Nat) : pyLen (aRun n) = n := by
  simp [pyLen, aRun]

/-- Counterexample to claim C7 as stated: the heuristic tier (not the
degenerate fallback) truncates the executive summary to 2000 characters — on
a 2001-character plain text the summary comes back one character short of the
stripped input. -/
theorem exec_truncation_counterexample :
    (stagedCoerce (aRun 2001) "").executive_summary = aRun 2000 ∧
      pyStrip (aRun 2001) = aRun 2001 ∧
      (stagedCoerce (aRun 2001) "").executive_summary ≠ pyStrip (aRun 2001) := by
  have h1 : (stagedCoerce (aRun 2001) "").executive_summary = aRun 2000 := by
    rw [show (2001 : Nat) = 2000 + 1 from rfl, stagedCoerce_aRun_heuristic 2000]
    show pyTake 2000 (pyStrip (aRun (2000 + 1))) = aRun 2000
    rw [pyStrip_aRun, pyTake_aRun]
    norm_num
  refine ⟨h1, pyStrip_aRun 2001, ?_⟩
  rw [h1, pyStrip_aRun]
  intro h
  have := congrArg pyLen h
  rw [aRun_len, aRun_len] at this
  omega

/-- Claim C7 (amended): the executive summary is trimmed to 400 characters in
the degenerate fallback and to 2000 characters in the heuristic tier; the
JSON normalization path applies no truncation — it returns the parsed
executive_summary of any length unchanged. -/
theorem exec_truncation_amended :
    (∀ es, normalizeJson (PyJson.obj [("executive_summary", PyJson.str es)]) =
      Except.ok
        { executive_summary := es, key_points := [], action_items := [], decisions := [],
          sentiment := "Unknown" }) ∧
    (∀ s, (heuristicNotes s).executive_summary = pyTake 2000 (pyStrip s)) ∧
    (∀ t, (degenerateNotes t).executive_summary =
      pyTake 400 t ++ (if 400 < pyLen t then "..." else "")) := by
  refine ⟨?_, fun s => rfl, fun t => rfl⟩
  intro es
  by_cases h : es = ""
  · subst h
    rfl
  · simp only [normalizeJson]
    rw [show dictGet [("executive_summary", PyJson.str es)] "executive_summary" (.str "") =
      PyJson.str es from rfl]
    rw [show dictGet [("executive_summary", PyJson.str es)] "key_points" (.arr []) =
      PyJson.arr [] from rfl]
    rw [show dictGet [("executive_summary", PyJson.str es)] "action_items" (.arr []) =
      PyJson.arr [] from rfl]
    rw [show dictGet [("executive_summary", PyJson.str es)] "decisions" (.arr []) =
      PyJson.arr [] from rfl]
    rw [show dictGet [("executive_summary", PyJson.str es)] "sentiment" (.str "") =
      PyJson.str "" from rfl]
    rw [pyOr_str_pyStr es]
    rfl

/-- Claim C8: `_code_to_lang_name` resolves the language selector
case-insensitively through the fixed lowercase map — en/ur/hi and the full
names map to English/Urdu/Hindi — while "auto" and every unrecognized value
resolve to English, and the resolved name appears verbatim in the generated
prompt. -/
theorem language_resolution :
    ∀ code t,
      (codeToLangName "auto" = "English" ∧ codeToLangName "AUTO" = "English" ∧
        codeToLangName "en" = "English" ∧ codeToLangName "EN" = "English" ∧
        codeToLangName "ur" = "Urdu" ∧ codeToLangName "Ur" = "Urdu" ∧
        codeToLangName "hi" = "Hindi" ∧ codeToLangName "hI" = "Hindi" ∧
        codeToLangName "English" = "English" ∧ codeToLangName "URDU" = "Urdu" ∧
        codeToLangName "Hindi" = "Hindi") ∧
      codeToLangName code = codeToLangName (pyLower code) ∧
      (langNameMap.lookup (pyLower code) = none → codeToLangName code = "English") ∧
      (∃ a b, buildSummarizePrompt t code = a ++ codeToLangName code ++ b) := by
  intro code t
  refine ⟨by decide, ?_, ?_, ?_⟩
  · unfold codeToLangName
    rw [pyLower_idem]
  · intro h
    unfold codeToLangName
    rw [h]
    rfl
  · refine ⟨promptHeader, promptSchema ++ pyTake 12000 t ++ "\n", ?_⟩
    unfold buildSummarizePrompt
    simp [String.append_assoc]

/-- Witness for C8: an unrecognized selector resolves to English. -/
theorem language_resolution_witness :
    langNameMap.lookup (pyLower "fr") = none ∧ codeToLangName "fr" = "English" :=
  ⟨rfl, (language_resolution "fr" "x").2.2.1 rfl⟩

/-- Claim C9: normalization is stable under round-trip — when a response
parses to JSON that normalizes to notes `n`, any response that parses to the
serialization of `n` (as `json.dumps` would re-read it) coerces to exactly
the same notes. -/
theorem normalization_idempotent :
    ∀ s s2 t t2 j n,
      pyJsonLoads (looseJsonExtract s) = Except.ok j →
      normalizeJson j = Except.ok n →
      pyJsonLoads (looseJsonExtract s2) = Except.ok (notesToJson n) →
      stagedCoerce s2 t2 = stagedCoerce s t := by
  intro s s2 t t2 j n h1 h2 h3
  have hinv := normalizeJson_invariants j n h2
  unfold stagedCoerce
  simp only [h1, h2, h3,
    normalizeJson_notesToJson n hinv.1 hinv.2.1 hinv.2.2.1 hinv.2.2.2]

/-- Witness for C9 on a concrete schema-shaped response and its
serialization. -/
theorem normalization_idempotent_witness :
    pyJsonLoads (looseJsonExtract rtInput) =
      Except.ok (PyJson.obj [("executive_summary", PyJson.str "E")]) ∧
    normalizeJson (PyJson.obj [("executive_summary", PyJson.str "E")]) = Except.ok rtNotes ∧
    pyJsonLoads (looseJsonExtract rtSerialized) = Except.ok (notesToJson rtNotes) ∧
    stagedCoerce rtSerialized "" = stagedCoerce rtInput "" :=
  ⟨rfl, rfl, rfl,
    normalization_idempotent rtInput rtSerialized "" "" _ rtNotes rfl rfl rfl⟩

/-- Claim C10: the heuristic's three line scans are independent, so one line
can populate several fields — on the Scenario C prose the bulleted action
line appears as a key point and is also the source of the only action
item. -/
theorem heuristic_line_scans_overlap :
    "Action: Send report owner: Ana due: Friday" ∈ (stagedCoerce scenarioCText "").key_points ∧
      (stagedCoerce scenarioCText "").action_items =
        [{ task := "Send report", owner := "Ana due: Friday", due := "Friday" }] := by
  decide
